import Mathlib

/-!
Verification of the FSM lifecycle-tracking engine (label_studio/fsm):
a shallow embedding of `state_manager.py` (StateManager.transition_state,
get_current_state_value), `transition_executor.py`
(execute_transition_with_state_manager), `models.py`
(FsmHistoryStateModel._determine_fsm_transitions / save), and `utils.py`
(UUID7Generator.generate), together with theorems about the engine's
short-circuit, locking, error-handling, ordering and id-generation behavior.

Stateful Python code is embedded as explicit state passing over a `World`
(the per-entity view of the shared cache, the advisory lock key and the
append-only StateRecord table).  Fallible collaborators (DB insert, cache
write, feature flags) are oracles carried in an `Env`.  Raised exceptions
are `Except` errors; 128-bit UUID ids are `Nat`.
-/

deriving instance DecidableEq for Except

namespace Fsm

/-- One immutable audit row (`StateRecord` of the spec; a `BaseState` row in
the code).  `id` is the 128-bit time-ordered UUID7 value as a number. -/
structure StateRecord where
  id : Nat
  state : String
  previous_state : Option String
  transition_name : Option String
  triggered_by : Option Nat
  organization_id : Option Nat
  reason : String
deriving Repr, DecidableEq

/-- The per-entity view of the shared stores touched by the manager:
`cache` is the entry under `fsm:current:<entity>`; `lock` says whether the
`...:lock` key currently exists; `records` is the entity's slice of the
append-only state table, in creation order. -/
structure World where
  cache : Option String
  lock : Bool
  records : List StateRecord
deriving Repr, DecidableEq

/-- Environment of one `transition_state` call: feature-flag evaluations,
ambient `CurrentContext` data, entity/user attributes, the failure oracles
for the fallible steps, and the fresh UUID7 assigned to a created row.
`fsmEnabledCtx` is `flag_set(...)` for the `CurrentContext` user (used by
`get_current_state_value`); `fsmEnabledUser` is the same flag for the
`user` argument (used at the top of `transition_state`). -/
structure Env where
  fsmEnabledCtx : Bool
  fsmEnabledUser : Bool
  hasStateModel : Bool
  ctxOrgId : Option Nat
  entityOrgId : Option Nat
  userActiveOrgId : Option Nat
  getStateFails : Bool
  createFails : Bool
  cacheSetFails : Bool
  freshId : Nat
deriving Repr, DecidableEq

/-- Python truthiness of an optional integer: `None` and `0` are falsy. -/
def pyTruthy : Option Nat → Bool
  | none => false
  | some n => n ≠ 0

/-- `getattr(denormalized_fields, 'organization_id', None)` in
`transition_state`: `get_denormalized_fields` returns a plain dict, and a
dict instance has no `organization_id` attribute, so this lookup always
yields `None`. -/
def denormAttrOrg : Option Nat := none

/-- `order_by('-id').first()` over the entity's records: the record with
the numerically largest id (earlier record kept on ties). -/
def latestRecord : List StateRecord → Option StateRecord
  | [] => none
  | r :: rs =>
    match latestRecord rs with
    | none => some r
    | some m => if r.id < m.id then some m else some r

/-- Modelled from the spec: `state_models.py` is not among the sources, so
the state model's own read (`BaseState.get_current_state_value`) follows
the spec's words: query the latest StateRecord by descending id and return
its `state`, or null when no record exists. -/
def dbLatestState (records : List StateRecord) : Option String :=
  (latestRecord records).map StateRecord.state

/-- Errors raised by the manager (`StateManagerError` in the code), tagged
by raise site; `transitionWrapped` wraps the original cause from the
locked section. -/
inductive FailCause where
  | createRecord
  | cacheWrite
deriving Repr, DecidableEq

inductive SMError where
  | noStateModelOnRead
  | noStateModelOnTransition
  | getStateWrapped
  | transitionWrapped (cause : FailCause)
deriving Repr, DecidableEq

/-- `StateManager.get_current_state_value`: feature gate, cache probe,
then the state-model read with a write-back to the cache when a state was
found.  Returns the resolved state (or an error) together with the
post-call world. -/
def getCurrentStateValue (env : Env) (w : World) :
    Except SMError (Option String) × World :=
  if ¬ env.fsmEnabledCtx then (.ok none, w)
  else
    match w.cache with
    | some s => (.ok (some s), w)
    | none =>
      if ¬ env.hasStateModel then (.error .noStateModelOnRead, w)
      else if env.getStateFails then (.error .getStateWrapped, w)
      else
        match dbLatestState w.records with
        | some s => (.ok (some s), { w with cache := some s })
        | none => (.ok none, w)

/-- The in-lock organization fallbacks of `transition_state` (lines
316-326): if the pre-resolved value is `None`, take the entity's
`organization_id` attribute (with the always-`None` denormalized-dict
attribute as `getattr` default); then, if the result is falsy and the user
has an active organization, take the user's active organization id. -/
def resolveOrgLocked (env : Env) (user : Option Nat) (org0 : Option Nat) :
    Option Nat :=
  let org1 :=
    if org0 = none then
      match env.entityOrgId with
      | some v => some v
      | none => denormAttrOrg
    else org0
  if ¬ pyTruthy org1 then
    match user, env.userActiveOrgId with
    | some _, some a => some a
    | _, _ => org1
  else org1

/-- Arguments of one `StateManager.transition_state` call (the entity is
implicit: the `World` is already the entity's slice of the stores). -/
structure Args where
  new_state : String
  transition_name : Option String := none
  user : Option Nat := none
  organization_id : Option Nat := none
  reason : String := ""
  force_state_record : Bool := false
deriving Repr, DecidableEq

/-- `StateManager.transition_state`.  Paths, in source order: feature gate
(silent success); missing state model (raise); current-state read (its
errors propagate uncleaned, they happen before the outer try); same-state
short-circuit gated on a record actually existing; organization
pre-resolution from the ambient context; optimistic lock via atomic cache
add (contention is a logged success no-op); locked section = denormalized
fields, in-lock organization fallbacks, record insert, write-through cache
set, with the lock deleted in a finally and any exception turned into a
`StateManagerError` after deleting both the lock key and the cache
entry. -/
def transition_state (env : Env) (a : Args) (w : World) :
    Except SMError Bool × World :=
  if ¬ env.fsmEnabledUser then (.ok true, w)
  else if ¬ env.hasStateModel then (.error .noStateModelOnTransition, w)
  else
    match getCurrentStateValue env w with
    | (.error e, w1) => (.error e, w1)
    | (.ok current, w1) =>
      if current = some a.new_state ∧ ¬ a.force_state_record
          ∧ w1.records ≠ [] then
        (.ok true, w1)
      else
        let org0 :=
          if a.organization_id = none then env.ctxOrgId else a.organization_id
        if w1.lock then (.ok true, w1)
        else if env.createFails then
          (.error (.transitionWrapped .createRecord),
            { w1 with lock := false, cache := none })
        else
          let newRec : StateRecord :=
            { id := env.freshId
              state := a.new_state
              previous_state := current
              transition_name := a.transition_name
              triggered_by := a.user
              organization_id := resolveOrgLocked env a.user org0
              reason := a.reason }
          let w2 := { w1 with records := w1.records ++ [newRec] }
          if env.cacheSetFails then
            (.error (.transitionWrapped .cacheWrite),
              { w2 with lock := false, cache := none })
          else
            (.ok true, { w2 with lock := false, cache := some a.new_state })

/-- Execution phases of a transition, recorded as a trace by the executor
model: the four lifecycle callbacks of the transition instance, plus
markers for the executor's current-state read (`state_model.get_current_state`)
and its delegation to `StateManager.transition_state`. -/
inductive Phase where
  | validatePhase
  | preHookPhase
  | executePhase
  | postHookPhase
  | stateLookupPhase
  | managerCallPhase
deriving Repr, DecidableEq

/-- Errors of `execute_transition_with_state_manager`:
`transitionNotFound` / `noStateModelRegistered` are its `ValueError`s,
`validationFailed` is `TransitionValidationError` raised by
`prepare_and_validate`, `stateRecordCreateFailed` is the `ValueError`
raised when `transition_state` reports non-success, and `manager` wraps a
propagating `StateManagerError`. -/
inductive ExecError where
  | transitionNotFound
  | noStateModelRegistered
  | validationFailed
  | stateRecordCreateFailed
  | manager (e : SMError)
deriving Repr, DecidableEq

/-- Environment of one executor call: whether the registry holds the
transition, the value `get_target_state` returns on the minimal context
(null marks a side-effect-only transition), the result of
`validate_transition`, the `skip_validation` flag of the context, the
transition's `_force_state_record` attribute, its `get_reason` string, and
the manager environment used when the executor delegates. -/
structure ExecEnv where
  transitionFound : Bool
  targetState : Option String
  validateOk : Bool
  skipValidation : Bool := false
  forceStateRecord : Bool := false
  reasonStr : String := ""
  smEnv : Env
deriving Repr, DecidableEq

/-- `BaseTransition.prepare_and_validate` followed by the hooks it runs:
when validation is not skipped and fails, a validation error is raised and
no hook runs; otherwise validate (if not skipped), the pre-hook and the
`transition` body run, in that order.  Returns the trace of phases. -/
def prepareAndValidateTrace (env : ExecEnv) : Except ExecError (List Phase) :=
  if ¬ env.skipValidation ∧ ¬ env.validateOk then
    .error .validationFailed
  else
    .ok ((if env.skipValidation then [] else [Phase.validatePhase])
      ++ [Phase.preHookPhase, Phase.executePhase])

/-- `execute_transition_with_state_manager` (the `transition_executor`
module).  Returns the produced record (null for side-effect-only
transitions), the post-call world, and the trace of phases that ran.
For a null target state: prepare/validate then `post_transition_hook`
with a null record, with no state-model or manager interaction.
Otherwise: current state is read directly from the state model (not
through the cache), the phases run, the manager transition is delegated
to, a non-success report raises, and the newly-current record is fetched
and finalized with the post-hook. -/
def execute_transition (env : ExecEnv) (name : String) (user : Option Nat)
    (w : World) : Except ExecError (Option StateRecord) × World × List Phase :=
  if ¬ env.transitionFound then (.error .transitionNotFound, w, [])
  else
    match env.targetState with
    | none =>
      match prepareAndValidateTrace env with
      | .error e => (.error e, w, if env.skipValidation then [] else [Phase.validatePhase])
      | .ok tr => (.ok none, w, tr ++ [Phase.postHookPhase])
    | some target =>
      if ¬ env.smEnv.hasStateModel then (.error .noStateModelRegistered, w, [])
      else
        match prepareAndValidateTrace env with
        | .error e => (.error e, w, Phase.stateLookupPhase :: (if env.skipValidation then [] else [Phase.validatePhase]))
        | .ok tr =>
          match transition_state env.smEnv
            { new_state := target
              transition_name := some name
              user := user
              organization_id := none
              reason := env.reasonStr
              force_state_record := env.forceStateRecord } w with
          | (.error e, w1) =>
            (.error (.manager e), w1, Phase.stateLookupPhase :: tr ++ [Phase.managerCallPhase])
          | (.ok success, w1) =>
            if ¬ success then
              (.error .stateRecordCreateFailed, w1,
                Phase.stateLookupPhase :: tr ++ [Phase.managerCallPhase])
            else
              (.ok (latestRecord w1.records), w1,
                Phase.stateLookupPhase :: tr ++ [Phase.managerCallPhase, Phase.postHookPhase])

/-- Changed-fields diff map passed into trigger discovery: field name to
(old value, new value), values kept opaque as optional strings. -/
def ChangedFields : Type := List (String × (Option String × Option String))

/-- One registered transition as trigger discovery sees it: the
registered name, the `_triggers_on_create` / `_triggers_on_update` /
`_trigger_fields` metadata set by the registration decorator, whether the
class overrides `should_execute` (the base implementation always returns
true and is not consulted), the predicate itself as a function of
(`is_creating`, changed fields), and whether evaluating the
`should_execute` check raises (a raise is logged and the transition kept). -/
structure TransitionDef where
  name : String
  triggersOnCreate : Bool := false
  triggersOnUpdate : Bool := true
  triggerFields : List String := []
  shouldExecOverridden : Bool := false
  shouldExec : Bool → ChangedFields → Bool := fun _ _ => true
  shouldExecRaises : Bool := false

/-- Trigger metadata test of `_determine_fsm_transitions`: on create the
`_triggers_on_create` flag; on update the `_triggers_on_update` flag and
either no trigger fields or a trigger field among the changed keys. -/
def triggerMetadataFires (isCreating : Bool) (changed : ChangedFields)
    (d : TransitionDef) : Bool :=
  if isCreating then d.triggersOnCreate
  else d.triggersOnUpdate
    && (d.triggerFields.isEmpty
        || d.triggerFields.any (fun f => (changed.map Prod.fst).contains f))

/-- `FsmHistoryStateModel._determine_fsm_transitions`: walk the registered
transitions in registration order; keep those whose trigger metadata
fires, except that a transition whose overridden `should_execute` returns
false on the reduced context is dropped — unless the check itself raises,
in which case the transition is kept and the error only logged. -/
def determine_fsm_transitions (isCreating : Bool) (changed : ChangedFields)
    (registered : List TransitionDef) : List String :=
  registered.filterMap (fun d =>
    if triggerMetadataFires isCreating changed d then
      if d.shouldExecOverridden && !d.shouldExecRaises
          && !d.shouldExec isCreating changed then
        none
      else some d.name
    else none)

/-- The `for transition_name in transitions` loop of
`FsmHistoryStateModel.save`: each execution attempt is wrapped in its own
try/except, a failure is logged and the loop continues with the next
sibling.  Returns the list of transitions that were attempted. -/
def runTransitionLoop (execOutcome : String → Except String Unit) :
    List String → List String
  | [] => []
  | n :: ns =>
    match execOutcome n with
    | .ok _ => n :: runTransitionLoop execOutcome ns
    | .error _ => n :: runTransitionLoop execOutcome ns

/-- `FsmHistoryStateModel.save` after the entity's own write has
succeeded with result `saveResult`: when FSM is not skipped and enabled,
discovery runs inside a try/except (a discovery failure is logged and no
transition runs), then every discovered transition is attempted by
`runTransitionLoop`; the method always returns the underlying save
result.  The pair is (returned result, transitions attempted). -/
def fsm_model_save (skipFsm fsmShouldExecute : Bool) (saveResult : Nat)
    (discovery : Except String (List String))
    (execOutcome : String → Except String Unit) : Nat × List String :=
  let shouldRun := ¬ skipFsm ∧ fsmShouldExecute
  if ¬ skipFsm ∧ shouldRun then
    match discovery with
    | .error _ => (saveResult, [])
    | .ok names => (saveResult, runTransitionLoop execOutcome names)
  else (saveResult, [])

/-- The 128-bit integer built by `UUID7Generator.generate`:
`(timestamp_ms << 80) | (0x7 << 76) | ((counter & 0xFFF) << 64) |
(0b10 << 62)`; the or-ed fields occupy disjoint bit ranges, so the
bitwise ors are sums. -/
def uuid7WithCounter (timestampMs counter : Nat) : Nat :=
  timestampMs * 2 ^ 80 + 7 * 2 ^ 76 + counter % 4096 * 2 ^ 64 + 2 * 2 ^ 62

/-- `UUID7Generator`: base timestamp in ms and the monotonic counter
(instance attribute `_counter`, starting at 0). -/
structure UUID7Generator where
  baseMs : Nat
  counter : Nat := 0
deriving Repr, DecidableEq

/-- `UUID7Generator.generate`: increment the counter, then build the id
from `base + offset_ms` and the incremented counter masked to 12 bits. -/
def UUID7Generator.generate (g : UUID7Generator) (offsetMs : Nat := 0) :
    Nat × UUID7Generator :=
  let c := g.counter + 1
  (uuid7WithCounter (g.baseMs + offsetMs) c, { g with counter := c })

/-- The ids of `n` successive `generate` calls at a fixed millisecond
offset, in call order. -/
def genCalls (g : UUID7Generator) (offsetMs : Nat) : Nat → List Nat
  | 0 => []
  | n + 1 =>
    let p := g.generate offsetMs
    p.1 :: genCalls p.2 offsetMs n

/-- The generator state after `n` successive `generate` calls. -/
def genState (g : UUID7Generator) (offsetMs : Nat) : Nat → UUID7Generator
  | 0 => g
  | n + 1 => genState (g.generate offsetMs).2 offsetMs n

/-- Adjacent audit-chain link: each record's `previous_state` names the
state of the record created immediately before it. -/
def prevLinked (l : List StateRecord) : Prop :=
  List.Chain' (fun a b => b.previous_state = some a.state) l

/-- The entity's first record carries a null `previous_state`. -/
def firstPrevNone : List StateRecord → Prop
  | [] => True
  | r :: _ => r.previous_state = none

/-- The cache entry, when present, equals the state of the latest record. -/
def cacheConsistent (w : World) : Prop :=
  w.cache = none ∨ w.cache = dbLatestState w.records

/-- The audit-trail invariant: ids strictly increase in creation order,
`previous_state` links adjacent records, the first record's
`previous_state` is null, and the cache is consistent. -/
def HistoryInvariant (w : World) : Prop :=
  w.records.Pairwise (fun a b => a.id < b.id)
    ∧ prevLinked w.records ∧ firstPrevNone w.records ∧ cacheConsistent w

/-- Worlds reachable from a fresh entity through State Manager operations
alone: any `transition_state` call (the fresh UUID7 given to a created
record exceeds every existing id, UUID7 being time-ordered per the spec,
and the one feature flag evaluates the same way at both of the call's two
check sites within one caller context), cache invalidation / TTL expiry,
and expiry of the advisory lock's own TTL. -/
inductive Reachable : World → Prop where
  | init : Reachable { cache := none, lock := false, records := [] }
  | step (env : Env) (a : Args) (w w' : World) (res : Except SMError Bool) :
      Reachable w →
      (∀ r ∈ w.records, r.id < env.freshId) →
      env.fsmEnabledCtx = env.fsmEnabledUser →
      transition_state env a w = (res, w') →
      Reachable w'
  | invalidateCache (w : World) : Reachable w → Reachable { w with cache := none }
  | lockTtlExpires (w : World) : Reachable w → Reachable { w with lock := false }

/-- The trigger-discovery filter exactly as claim C5 words it: on
creation, `triggers_on_create`; on update, `triggers_on_update` and
either an empty `trigger_fields` list or some trigger field among the
changed-field keys; and in both cases a transition whose overridden
`should_execute` returns false on the reduced context is excluded. -/
def claimTriggerKeep (isCreating : Bool) (changed : ChangedFields)
    (d : TransitionDef) : Bool :=
  (if isCreating then d.triggersOnCreate
   else d.triggersOnUpdate
     && (d.triggerFields.isEmpty
         || d.triggerFields.any (fun f => (changed.map Prod.fst).contains f)))
  && !(d.shouldExecOverridden && !d.shouldExec isCreating changed)

/-- The organization precedence exactly as claim C9 words it: the first
non-null among explicit parameter, the entity's organization attribute,
the parent entity's organization attribute, the acting user's active
organization. -/
def claimOrgPrecedence (explicitParam entityOrg parentOrg userActiveOrg :
    Option Nat) : Option Nat :=
  explicitParam <|> entityOrg <|> parentOrg <|> userActiveOrg

/-- A fault-free, fully enabled environment used by concrete witnesses. -/
def envPlain : Env :=
  { fsmEnabledCtx := true, fsmEnabledUser := true, hasStateModel := true,
    ctxOrgId := none, entityOrgId := none, userActiveOrgId := none,
    getStateFails := false, createFails := false, cacheSetFails := false,
    freshId := 1 }

/-- Registered-transition fixtures for the discovery witness: one
creation-triggered transition, one update transition watching a field,
and one update transition whose overridden `should_execute` vetoes it. -/
def discoveryFixtures : List TransitionDef :=
  [ { name := "task_created", triggersOnCreate := true, triggersOnUpdate := false },
    { name := "task_labeled", triggerFields := ["is_labeled"] },
    { name := "task_vetoed", shouldExecOverridden := true,
      shouldExec := fun _ _ => false } ]

/-- Executor fixture for the save witness: the first transition fails,
the second succeeds. -/
def saveExecFixture : String → Except String Unit :=
  fun n => if n = "task_created" then .error "boom" else .ok ()

/-- A fresh entity: nothing cached, no lock, no records. -/
def emptyWorld : World := { cache := none, lock := false, records := [] }

/-- A first audit record, as `transition_state` creates it. -/
def recCreated : StateRecord :=
  { id := 1, state := "CREATED", previous_state := none,
    transition_name := none, triggered_by := none, organization_id := none,
    reason := "" }

/-- A world whose lock key is currently held by another writer. -/
def lockHeldWorld : World :=
  { cache := none, lock := true, records := [recCreated] }

/-- Environment with an ambient context organization, an entity
organization attribute and a user active organization all present. -/
def envOrgAll : Env :=
  { envPlain with
      ctxOrgId := some 7
      entityOrgId := some 5
      userActiveOrgId := some 9 }

/-- Executor environment of a side-effect-only transition (null target
state), found in the registry and passing validation. -/
def execEnvSideEffect : ExecEnv :=
  { transitionFound := true, targetState := none, validateOk := true,
    smEnv := envPlain }

/-- Environment for a second transition, with the next time-ordered id. -/
def envStep2 : Env := { envPlain with freshId := 2 }

/-- A world whose cache holds an inferred value while no record exists. -/
def cachedNoRecordWorld : World :=
  { cache := some "CREATED", lock := false, records := [] }

/-- `lockHeldWorld` after the read path filled the empty cache. -/
def lockHeldWorldRead : World :=
  { cache := some "CREATED", lock := true, records := [recCreated] }

/-- Environment whose record insert raises. -/
def envCreateFail : Env := { envPlain with createFails := true }

/-- The world after transitioning a fresh entity to CREATED. -/
def wStep1 : World :=
  { cache := some "CREATED", lock := false, records := [recCreated] }

/-- The second audit record of the two-step witness run. -/
def recCompleted : StateRecord :=
  { id := 2, state := "COMPLETED", previous_state := some "CREATED",
    transition_name := none, triggered_by := none, organization_id := none,
    reason := "" }

/-- The world after a further transition of the same entity to COMPLETED. -/
def wStep2 : World :=
  { cache := some "COMPLETED", lock := false,
    records := [recCreated, recCompleted] }

/-! Helper lemmas shared by the claim theorems. -/

/-- The read path never touches the records or the lock, and either
leaves the cache alone or fills an empty cache with the latest state. -/
theorem getCurrentStateValue_frame (env : Env) (w : World) :
    (getCurrentStateValue env w).2.records = w.records ∧
    (getCurrentStateValue env w).2.lock = w.lock ∧
    ((getCurrentStateValue env w).2.cache = w.cache ∨
      (w.cache = none ∧
        (getCurrentStateValue env w).2.cache = dbLatestState w.records)) := by
  unfold getCurrentStateValue
  split
  · exact ⟨rfl, rfl, Or.inl rfl⟩
  · split
    · exact ⟨rfl, rfl, Or.inl rfl⟩
    · split
      · exact ⟨rfl, rfl, Or.inl rfl⟩
      · split
        · exact ⟨rfl, rfl, Or.inl rfl⟩
        · split
          · next s heq => exact ⟨rfl, rfl, Or.inr ⟨by assumption, by simp [heq]⟩⟩
          · exact ⟨rfl, rfl, Or.inl rfl⟩

/-- Under a consistent cache and an enabled flag, the read path resolves
exactly the latest persisted state. -/
theorem getCurrentStateValue_val (env : Env) (w : World)
    (current : Option String) (w1 : World)
    (hctx : env.fsmEnabledCtx = true) (hc : cacheConsistent w)
    (h : getCurrentStateValue env w = (.ok current, w1)) :
    current = dbLatestState w.records := by
  rcases hcache : w.cache with _ | s
  · by_cases hm : env.hasStateModel = true
    · by_cases hg : env.getStateFails = true
      · simp [getCurrentStateValue, hctx, hcache, hm, hg] at h
      · rcases hdb : dbLatestState w.records with _ | s
        · simp [getCurrentStateValue, hctx, hcache, hm, hg, hdb] at h
          exact h.1.symm
        · simp [getCurrentStateValue, hctx, hcache, hm, hg, hdb] at h
          exact h.1.symm
    · simp [getCurrentStateValue, hctx, hcache, hm] at h
  · simp [getCurrentStateValue, hctx, hcache] at h
    rcases hc with hc | hc
    · rw [hcache] at hc
      exact absurd hc (by simp)
    · rw [hcache] at hc
      rw [← h.1]
      exact hc

/-- The read path preserves cache consistency. -/
theorem getCurrentStateValue_consistent (env : Env) (w : World)
    (hc : cacheConsistent w) :
    cacheConsistent (getCurrentStateValue env w).2 := by
  have hf := getCurrentStateValue_frame env w
  rcases hf with ⟨hrec, _, hcache | ⟨_, hcache⟩⟩
  · unfold cacheConsistent
    rw [hcache, hrec]
    exact hc
  · unfold cacheConsistent
    rw [hcache, hrec]
    exact Or.inr rfl

/-- On an id-sorted record list, the max-id record is the last one. -/
theorem latestRecord_eq_getLast (l : List StateRecord)
    (h : l.Pairwise (fun a b => a.id < b.id)) :
    latestRecord l = l.getLast? := by
  induction l with
  | nil => rfl
  | cons r rs ih =>
    rcases List.pairwise_cons.mp h with ⟨hr, hp⟩
    cases rs with
    | nil => rfl
    | cons s rs' =>
      have htail : latestRecord (s :: rs') = (s :: rs').getLast? := ih hp
      have hne : (s :: rs') ≠ [] := by simp
      have hgl : (s :: rs').getLast? = some ((s :: rs').getLast hne) :=
        List.getLast?_eq_getLast_of_ne_nil hne
      have hmem : (s :: rs').getLast hne ∈ s :: rs' := List.getLast_mem hne
      have hlt : r.id < ((s :: rs').getLast hne).id := hr _ hmem
      show (match latestRecord (s :: rs') with
        | none => some r
        | some m => if r.id < m.id then some m else some r) =
          (r :: s :: rs').getLast?
      rw [htail, hgl]
      simp only [if_pos hlt]
      rw [List.getLast?_cons_cons, hgl]

/-- Appending a record whose id dominates makes it the latest record. -/
theorem latestRecord_append (l : List StateRecord) (x : StateRecord)
    (h : ∀ r ∈ l, r.id < x.id) : latestRecord (l ++ [x]) = some x := by
  induction l with
  | nil => rfl
  | cons r rs ih =>
    have htail := ih (fun q hq => h q (List.mem_cons_of_mem r hq))
    show (match latestRecord (rs ++ [x]) with
      | none => some (r : StateRecord)
      | some m => if r.id < m.id then some m else some r) = some x
    rw [htail]
    simp only []
    rw [if_pos (h r (List.mem_cons_self r rs))]

/-- `transition_state` reports success on every non-raising path: the
boolean it returns is always `true`. -/
theorem transition_state_ok_true (env : Env) (a : Args) (w : World)
    (b : Bool) (w' : World)
    (h : transition_state env a w = (.ok b, w')) : b = true := by
  unfold transition_state at h
  repeat' split at h
  all_goals simp_all

/-- The per-transition try/except in `save`'s loop attempts every
discovered transition, whatever the individual outcomes. -/
theorem runTransitionLoop_eq (f : String → Except String Unit)
    (ns : List String) : runTransitionLoop f ns = ns := by
  induction ns with
  | nil => rfl
  | cons n ns ih =>
    show (match f n with
      | .ok _ => n :: runTransitionLoop f ns
      | .error _ => n :: runTransitionLoop f ns) = n :: ns
    cases f n <;> simp [ih]

/-- The claim-side discovery filter agrees with the code-side metadata
test composed with the (non-raising) `should_execute` veto. -/
theorem claimTriggerKeep_eq (isCreating : Bool) (changed : ChangedFields)
    (d : TransitionDef) (hd : d.shouldExecRaises = false) :
    claimTriggerKeep isCreating changed d =
      (triggerMetadataFires isCreating changed d
        && !(d.shouldExecOverridden && !d.shouldExecRaises
          && !d.shouldExec isCreating changed)) := by
  unfold claimTriggerKeep triggerMetadataFires
  rw [hd]
  cases isCreating <;> simp

/-- Claim C10: `StateManager.transition_state` never reports failure:
every execution path either returns `true` or raises; consequently the
executor's branch that raises `stateRecordCreateFailed` on a non-success
report is unreachable for every input. -/
theorem transition_state_never_returns_false :
    (∀ (env : Env) (a : Args) (w : World),
      (transition_state env a w).1 ≠ Except.ok false) ∧
    (∀ (env : ExecEnv) (name : String) (user : Option Nat) (w : World),
      (execute_transition env name user w).1 ≠
        Except.error ExecError.stateRecordCreateFailed) := by
  constructor
  · intro env a w hcontra
    have hb := transition_state_ok_true env a w false
      (transition_state env a w).2
      (Prod.ext hcontra rfl)
    exact Bool.false_ne_true hb
  · intro env name user w hcontra
    have hprep : ∀ e, prepareAndValidateTrace env = .error e →
        e = .validationFailed := by
      intro e he
      unfold prepareAndValidateTrace at he
      split at he <;> simp_all
    unfold execute_transition at hcontra
    split at hcontra
    · simp_all
    · split at hcontra
      · split at hcontra
        · next e heq =>
          have := hprep e heq
          simp_all
        · simp_all
      · split at hcontra
        · simp_all
        · split at hcontra
          · next e heq =>
            have := hprep e heq
            simp_all
          · split at hcontra
            · simp_all
            · split at hcontra
              · next success w1 heq hfail =>
                have := transition_state_ok_true _ _ _ _ _ heq
                simp_all
              · simp_all

/-- Claim C6: a failure while discovering transitions or while executing
one candidate transition is swallowed inside `save`: the underlying
persistence result is always returned, and when discovery succeeds every
discovered sibling is attempted regardless of individual failures. -/
theorem save_swallows_transition_errors (skipFsm fsmShouldExecute : Bool)
    (saveResult : Nat) (discovery : Except String (List String))
    (execOutcome : String → Except String Unit) (names : List String) :
    (fsm_model_save skipFsm fsmShouldExecute saveResult discovery
        execOutcome).1 = saveResult ∧
    (skipFsm = false → fsmShouldExecute = true → discovery = .ok names →
      (fsm_model_save skipFsm fsmShouldExecute saveResult discovery
        execOutcome).2 = names) := by
  constructor
  · cases discovery <;> cases skipFsm <;> cases fsmShouldExecute <;>
      simp [fsm_model_save]
  · intro hs hf hd
    simp [fsm_model_save, hs, hf, hd, runTransitionLoop_eq]

/-- Witness for C6 at a concrete input: the first of two discovered
transitions fails, the second still runs and the save result survives. -/
theorem save_swallows_transition_errors_witness :
    (false = false ∧ true = true ∧
      (Except.ok ["task_created", "task_labeled"] :
        Except String (List String)) = .ok ["task_created", "task_labeled"]) ∧
    (fsm_model_save false true 42 (.ok ["task_created", "task_labeled"])
        saveExecFixture).1 = 42 ∧
    (fsm_model_save false true 42 (.ok ["task_created", "task_labeled"])
        saveExecFixture).2 = ["task_created", "task_labeled"] := by
  have h := save_swallows_transition_errors false true 42
    (.ok ["task_created", "task_labeled"]) saveExecFixture
    ["task_created", "task_labeled"]
  exact ⟨⟨rfl, rfl, rfl⟩, h.1, h.2 rfl rfl rfl⟩

/-- Claim C5: trigger discovery returns exactly the registered names that
pass the trigger-metadata test (creation flag, update flag plus
trigger-field intersection) and are not vetoed by an overridden
`should_execute` on the reduced context, provided no `should_execute`
check raises. -/
theorem trigger_discovery_exact (isCreating : Bool)
    (changed : ChangedFields) (registered : List TransitionDef)
    (hsafe : ∀ d ∈ registered, d.shouldExecRaises = false) :
    determine_fsm_transitions isCreating changed registered =
      (registered.filter (claimTriggerKeep isCreating changed)).map
        TransitionDef.name := by
  induction registered with
  | nil => rfl
  | cons d ds ih =>
    have hd := hsafe d (List.mem_cons_self d ds)
    have ihs := ih (fun q hq => hsafe q (List.mem_cons_of_mem d hq))
    unfold determine_fsm_transitions at ihs ⊢
    rw [List.filterMap_cons, List.filter_cons,
      claimTriggerKeep_eq isCreating changed d hd, ihs]
    cases hf : triggerMetadataFires isCreating changed d <;>
      cases hv : (d.shouldExecOverridden && !d.shouldExecRaises
        && !d.shouldExec isCreating changed) <;>
      simp

/-- Witness for C5 at a concrete input: an update changing `is_labeled`
selects the field-triggered transition, skips the creation-only one and
drops the vetoed one. -/
theorem trigger_discovery_exact_witness :
    (∀ d ∈ discoveryFixtures, d.shouldExecRaises = false) ∧
    determine_fsm_transitions false
        [("is_labeled", (some "false", some "true"))] discoveryFixtures =
      (discoveryFixtures.filter (claimTriggerKeep false
        [("is_labeled", (some "false", some "true"))])).map
        TransitionDef.name ∧
    determine_fsm_transitions false
        [("is_labeled", (some "false", some "true"))] discoveryFixtures =
      ["task_labeled"] := by
  have hsafe : ∀ d ∈ discoveryFixtures, d.shouldExecRaises = false := by
    intro d hd
    rcases List.mem_cons.mp hd with rfl | hd
    · rfl
    rcases List.mem_cons.mp hd with rfl | hd
    · rfl
    rcases List.mem_cons.mp hd with rfl | hd
    · rfl
    · exact absurd hd (List.not_mem_nil d)
  refine ⟨hsafe, trigger_discovery_exact false _ discoveryFixtures hsafe, rfl⟩

/-- Claim C7: a transition whose `get_target_state` is null on the
minimal context runs validate, the pre-hook, the execute body and then
the post-hook with a null record, returns null, and touches neither the
state model nor the State Manager: no current-state lookup, no manager
call, and the world (records, cache, lock) is unchanged. -/
theorem side_effect_only_no_manager (env : ExecEnv) (name : String)
    (user : Option Nat) (w : World)
    (hfound : env.transitionFound = true)
    (htarget : env.targetState = none)
    (hskip : env.skipValidation = false)
    (hvalid : env.validateOk = true) :
    execute_transition env name user w =
      (.ok none, w, [Phase.validatePhase, Phase.preHookPhase,
        Phase.executePhase, Phase.postHookPhase]) := by
  simp [execute_transition, prepareAndValidateTrace, hfound, htarget, hskip,
    hvalid]

/-- Witness for C7 at a concrete input. -/
theorem side_effect_only_no_manager_witness :
    (execEnvSideEffect.transitionFound = true ∧
      execEnvSideEffect.targetState = none ∧
      execEnvSideEffect.skipValidation = false ∧
      execEnvSideEffect.validateOk = true) ∧
    execute_transition execEnvSideEffect "annotation_side_effect" none
        emptyWorld =
      (.ok none, emptyWorld, [Phase.validatePhase, Phase.preHookPhase,
        Phase.executePhase, Phase.postHookPhase]) :=
  ⟨⟨rfl, rfl, rfl, rfl⟩,
    side_effect_only_no_manager execEnvSideEffect "annotation_side_effect"
      none emptyWorld rfl rfl rfl rfl⟩

/-- Claim C1: a transition to the entity's current state without
`force_state_record` returns success and creates no record when a
StateRecord already exists; when none exists (the current value was only
cached or inferred) the call falls through and persists exactly one
record carrying that state. -/
theorem same_state_transition_idempotent (env : Env) (a : Args)
    (w w1 : World)
    (henu : env.fsmEnabledUser = true)
    (hmodel : env.hasStateModel = true)
    (hcur : getCurrentStateValue env w = (.ok (some a.new_state), w1))
    (hforce : a.force_state_record = false) :
    (w1.records ≠ [] → transition_state env a w = (.ok true, w1)) ∧
    (w1.records = [] → w1.lock = false → env.createFails = false →
      env.cacheSetFails = false →
      (transition_state env a w).1 = .ok true ∧
      ((transition_state env a w).2.records.map StateRecord.state)
        = [a.new_state]) := by
  constructor
  · intro hne
    simp [transition_state, henu, hmodel, hcur, hforce, hne]
  · intro h0 hlock hcf hcsf
    simp [transition_state, henu, hmodel, hcur, hforce, h0, hlock, hcf, hcsf]

/-- Witness for C1 at a concrete input: a cached value with no persisted
record, transitioned to the same state, yields exactly one record. -/
theorem same_state_transition_idempotent_witness :
    (envPlain.fsmEnabledUser = true ∧ envPlain.hasStateModel = true ∧
      getCurrentStateValue envPlain cachedNoRecordWorld =
        (.ok (some "CREATED"), cachedNoRecordWorld) ∧
      cachedNoRecordWorld.records = [] ∧
      cachedNoRecordWorld.lock = false) ∧
    (transition_state envPlain { new_state := "CREATED" }
        cachedNoRecordWorld).1 = .ok true ∧
    ((transition_state envPlain { new_state := "CREATED" }
        cachedNoRecordWorld).2.records.map StateRecord.state)
      = ["CREATED"] :=
  ⟨⟨rfl, rfl, by decide, rfl, rfl⟩,
    (same_state_transition_idempotent envPlain { new_state := "CREATED" }
      cachedNoRecordWorld cachedNoRecordWorld rfl rfl (by decide) rfl).2
      rfl rfl rfl rfl⟩

/-- Claim C2 counterexample: with the lock held by another writer, an
empty cache and one existing record, the call does return success and
creates no record, but it does write to the cache: the read path fills
the entity's cache entry with the current state, refuting "writes nothing
to the cache". -/
theorem lock_contention_cache_write_counterexample :
    (transition_state envPlain { new_state := "IN_PROGRESS" }
        lockHeldWorld).1 = .ok true ∧
    (transition_state envPlain { new_state := "IN_PROGRESS" }
        lockHeldWorld).2.records = lockHeldWorld.records ∧
    (transition_state envPlain { new_state := "IN_PROGRESS" }
        lockHeldWorld).2.cache ≠ lockHeldWorld.cache := by
  decide

/-- Claim C2 (amended): when the atomic add of the lock key fails the
call returns success, creates no StateRecord, does not retry or raise,
and leaves the lock as it was; the only cache write it can perform is the
read path's filling of an empty cache with the pre-existing current
state — the new state is never written. -/
theorem lock_contention_benign_no_op (env : Env) (a : Args) (w w1 : World)
    (current : Option String)
    (henu : env.fsmEnabledUser = true)
    (hmodel : env.hasStateModel = true)
    (hcur : getCurrentStateValue env w = (.ok current, w1))
    (hnoshort : ¬ (current = some a.new_state
      ∧ ¬ a.force_state_record = true ∧ w1.records ≠ []))
    (hlock : w1.lock = true) :
    transition_state env a w = (.ok true, w1) ∧
    w1.records = w.records ∧ w1.lock = w.lock ∧
    (w1.cache = w.cache ∨
      (w.cache = none ∧ w1.cache = dbLatestState w.records)) := by
  have hf := getCurrentStateValue_frame env w
  rw [hcur] at hf
  refine ⟨?_, hf.1, hf.2.1, hf.2.2⟩
  simp only [transition_state, henu, hmodel, hcur]
  rw [if_neg (by simp), if_neg hnoshort]
  simp [hlock]

/-- Witness for C2's amended statement at a concrete input. -/
theorem lock_contention_benign_no_op_witness :
    (getCurrentStateValue envPlain lockHeldWorld =
      (.ok (some "CREATED"), lockHeldWorldRead) ∧
      lockHeldWorldRead.lock = true) ∧
    (transition_state envPlain { new_state := "IN_PROGRESS" } lockHeldWorld
        = (.ok true, lockHeldWorldRead) ∧
      lockHeldWorldRead.records = lockHeldWorld.records ∧
      lockHeldWorldRead.lock = lockHeldWorld.lock ∧
      (lockHeldWorldRead.cache = lockHeldWorld.cache ∨
        (lockHeldWorld.cache = none ∧
          lockHeldWorldRead.cache = dbLatestState lockHeldWorld.records))) :=
  ⟨⟨by decide, rfl⟩,
    lock_contention_benign_no_op envPlain { new_state := "IN_PROGRESS" }
      lockHeldWorld lockHeldWorldRead (some "CREATED") rfl rfl (by decide)
      (by decide) rfl⟩

/-- Claim C3: any exception inside the locked section (record insert or
cache write) reaches the caller as a StateManagerError wrapping the
original cause, and beforehand the lock key is deleted and the entity's
cache entry is deleted rather than left stale; when the insert itself
failed no record is persisted. -/
theorem locked_section_failure_cleanup (env : Env) (a : Args)
    (w w1 : World) (current : Option String)
    (henu : env.fsmEnabledUser = true)
    (hmodel : env.hasStateModel = true)
    (hcur : getCurrentStateValue env w = (.ok current, w1))
    (hnoshort : ¬ (current = some a.new_state
      ∧ ¬ a.force_state_record = true ∧ w1.records ≠ []))
    (hlock : w1.lock = false)
    (hfail : env.createFails = true ∨ env.cacheSetFails = true) :
    (transition_state env a w).1 =
      .error (.transitionWrapped
        (if env.createFails then .createRecord else .cacheWrite)) ∧
    (transition_state env a w).2.lock = false ∧
    (transition_state env a w).2.cache = none ∧
    (env.createFails = true →
      (transition_state env a w).2.records = w.records) := by
  have hf := getCurrentStateValue_frame env w
  rw [hcur] at hf
  have hw1r : w1.records = w.records := hf.1
  cases hc : env.createFails
  · have hcs : env.cacheSetFails = true := by
      rcases hfail with h | h
      · rw [hc] at h
        exact absurd h (by simp)
      · exact h
    simp only [transition_state, henu, hmodel, hcur]
    rw [if_neg (by simp), if_neg hnoshort]
    simp [hlock, hc, hcs]
  · simp only [transition_state, henu, hmodel, hcur]
    rw [if_neg (by simp), if_neg hnoshort]
    simp [hlock, hc, hw1r]

/-- Witness for C3 at a concrete input: the record insert raises. -/
theorem locked_section_failure_cleanup_witness :
    (getCurrentStateValue envCreateFail emptyWorld =
      (.ok none, emptyWorld) ∧
      emptyWorld.lock = false ∧ envCreateFail.createFails = true) ∧
    ((transition_state envCreateFail { new_state := "CREATED" }
        emptyWorld).1 =
      .error (.transitionWrapped
        (if envCreateFail.createFails then .createRecord else .cacheWrite)) ∧
    (transition_state envCreateFail { new_state := "CREATED" }
        emptyWorld).2.lock = false ∧
    (transition_state envCreateFail { new_state := "CREATED" }
        emptyWorld).2.cache = none ∧
    (envCreateFail.createFails = true →
      (transition_state envCreateFail { new_state := "CREATED" }
        emptyWorld).2.records = emptyWorld.records)) :=
  ⟨⟨by decide, rfl, rfl⟩,
    locked_section_failure_cleanup envCreateFail { new_state := "CREATED" }
      emptyWorld emptyWorld none rfl rfl (by decide) (by decide) rfl
      (Or.inl rfl)⟩

/-- The in-lock organization fallbacks, spelled as a precedence: first
non-null of the pre-resolved value and the entity attribute, then the
user's active organization when those are absent (zero values excluded,
since the user fallback tests Python truthiness). -/
theorem resolveOrgLocked_eq (env : Env) (user org0 : Option Nat)
    (hz0 : org0 ≠ some 0) (hze : env.entityOrgId ≠ some 0) :
    resolveOrgLocked env user org0 =
      match org0 <|> env.entityOrgId with
      | some v => some v
      | none =>
        match user, env.userActiveOrgId with
        | some _, some u => some u
        | _, _ => none := by
  rcases org0 with _ | v
  · rcases hE : env.entityOrgId with _ | e
    · rcases user with _ | u <;>
        rcases hU : env.userActiveOrgId with _ | uo <;>
        simp [resolveOrgLocked, pyTruthy, denormAttrOrg, hE, hU]
    · have he0 : e ≠ 0 := by
        intro h
        exact hze (by rw [hE, h])
      simp [resolveOrgLocked, pyTruthy, denormAttrOrg, hE, he0]
  · have hv0 : v ≠ 0 := fun h => hz0 (by rw [h])
    simp [resolveOrgLocked, pyTruthy, hv0]

/-- Claim C9 counterexample: explicit parameter absent, ambient context
organization 7, entity organization attribute 5, user active organization
9 — the code records 7 (the ambient context), while the claim's
precedence (explicit → entity → parent → user) would record 5. -/
theorem org_precedence_counterexample :
    ((transition_state envOrgAll
        { new_state := "IN_PROGRESS", user := some 1 }
        emptyWorld).2.records.map StateRecord.organization_id) = [some 7] ∧
    claimOrgPrecedence none envOrgAll.entityOrgId none
        envOrgAll.userActiveOrgId = some 5 ∧
    (some 7 : Option Nat) ≠ some 5 := by
  decide

/-- Claim C9 (amended): the organization recorded on the StateRecord is
the first non-null among explicit parameter, ambient context
organization, and the entity's organization attribute; only when all
three are absent does the acting user's active organization apply.  The
parent/denormalized fallback is unreachable (attribute lookup on the
denormalized dict always yields null).  Zero-valued organization ids are
excluded, the final fallback testing Python truthiness rather than
nullness. -/
theorem org_resolution_order (env : Env) (a : Args) (w w1 : World)
    (current : Option String)
    (henu : env.fsmEnabledUser = true)
    (hmodel : env.hasStateModel = true)
    (hcur : getCurrentStateValue env w = (.ok current, w1))
    (hnoshort : ¬ (current = some a.new_state
      ∧ ¬ a.force_state_record = true ∧ w1.records ≠ []))
    (hlock : w1.lock = false)
    (hcf : env.createFails = false) (hcsf : env.cacheSetFails = false)
    (hz0 : a.organization_id ≠ some 0) (hzc : env.ctxOrgId ≠ some 0)
    (hze : env.entityOrgId ≠ some 0) :
    (transition_state env a w).2.records = w.records ++
      [{ id := env.freshId, state := a.new_state, previous_state := current,
         transition_name := a.transition_name, triggered_by := a.user,
         organization_id :=
           match (a.organization_id <|> env.ctxOrgId) <|> env.entityOrgId with
           | some v => some v
           | none =>
             match a.user, env.userActiveOrgId with
             | some _, some u => some u
             | _, _ => none,
         reason := a.reason }] := by
  have hf := getCurrentStateValue_frame env w
  rw [hcur] at hf
  have hw1r : w1.records = w.records := hf.1
  have horg0 : (if a.organization_id = none then env.ctxOrgId
      else a.organization_id) = (a.organization_id <|> env.ctxOrgId) := by
    cases a.organization_id <;> simp
  have hz01 : (a.organization_id <|> env.ctxOrgId) ≠ some 0 := by
    cases ha : a.organization_id
    · simpa using hzc
    · rw [ha] at hz0
      simpa using hz0
  simp only [transition_state, henu, hmodel, hcur]
  rw [if_neg (by simp), if_neg hnoshort]
  simp only [hlock, if_false, hcf, hcsf, Bool.false_eq_true]
  rw [horg0, resolveOrgLocked_eq env a.user _ hz01 hze, hw1r]
  simp

/-- Witness for C9's amended statement at a concrete input: with no
explicit parameter, the ambient context organization (7) wins over the
entity attribute (5) and the user's active organization (9). -/
theorem org_resolution_order_witness :
    (getCurrentStateValue envOrgAll emptyWorld = (.ok none, emptyWorld) ∧
      emptyWorld.lock = false ∧ envOrgAll.ctxOrgId = some 7 ∧
      envOrgAll.entityOrgId = some 5) ∧
    (transition_state envOrgAll
        { new_state := "IN_PROGRESS", user := some 1 }
        emptyWorld).2.records = emptyWorld.records ++
      [{ id := envOrgAll.freshId, state := "IN_PROGRESS",
         previous_state := none, transition_name := none,
         triggered_by := some 1,
         organization_id :=
           match (none <|> envOrgAll.ctxOrgId) <|> envOrgAll.entityOrgId with
           | some v => some v
           | none =>
             match some 1, envOrgAll.userActiveOrgId with
             | some _, some u => some u
             | _, _ => none,
         reason := "" }] :=
  ⟨⟨by decide, rfl, rfl, rfl⟩,
    org_resolution_order envOrgAll
      { new_state := "IN_PROGRESS", user := some 1 } emptyWorld emptyWorld
      none rfl rfl (by decide) (by decide) rfl rfl rfl (by decide)
      (by decide) (by decide)⟩

/-- Appending a record whose id dominates and whose `previous_state` is
the latest persisted state extends all three record-list invariants. -/
theorem records_append_invariant (l : List StateRecord) (x : StateRecord)
    (hpw : l.Pairwise (fun a b => a.id < b.id))
    (hpl : prevLinked l) (hfp : firstPrevNone l)
    (hfresh : ∀ r ∈ l, r.id < x.id)
    (hprev : x.previous_state = dbLatestState l) :
    (l ++ [x]).Pairwise (fun a b => a.id < b.id) ∧ prevLinked (l ++ [x])
      ∧ firstPrevNone (l ++ [x]) := by
  refine ⟨?_, ?_, ?_⟩
  · rw [List.pairwise_append]
    refine ⟨hpw, List.pairwise_singleton _ _, ?_⟩
    intro r hr y hy
    rw [List.mem_singleton] at hy
    subst hy
    exact hfresh r hr
  · unfold prevLinked at hpl ⊢
    rw [List.chain'_append]
    refine ⟨hpl, List.chain'_singleton _, ?_⟩
    intro q hq y hy
    simp only [List.head?_cons, Option.mem_def, Option.some.injEq] at hy
    subst hy
    rw [hprev, dbLatestState, latestRecord_eq_getLast l hpw]
    simp only [Option.mem_def] at hq
    rw [hq]
    rfl
  · cases hl : l with
    | nil =>
      show x.previous_state = none
      rw [hprev, hl]
      rfl
    | cons r rs =>
      show r.previous_state = none
      rw [hl] at hfp
      exact hfp

/-- One `transition_state` call preserves the audit-trail invariant,
provided the fresh id exceeds every existing id (UUID7 time ordering)
and the feature flag evaluates consistently within the call. -/
theorem transition_preserves_invariant (env : Env) (a : Args) (w : World)
    (res : Except SMError Bool) (w' : World)
    (hfresh : ∀ r ∈ w.records, r.id < env.freshId)
    (hflag : env.fsmEnabledCtx = env.fsmEnabledUser)
    (heq : transition_state env a w = (res, w'))
    (hinv : HistoryInvariant w) : HistoryInvariant w' := by
  obtain ⟨hpw, hpl, hfp, hcc⟩ := hinv
  by_cases hu : env.fsmEnabledUser = true
  · by_cases hm : env.hasStateModel = true
    · rcases hread : getCurrentStateValue env w with ⟨res0, w1⟩
      have hfr := getCurrentStateValue_frame env w
      rw [hread] at hfr
      have hrec : w1.records = w.records := hfr.1
      have hw1cc : cacheConsistent w1 := by
        have h := getCurrentStateValue_consistent env w hcc
        rw [hread] at h
        exact h
      have hinv1 : HistoryInvariant w1 := by
        refine ⟨?_, ?_, ?_, hw1cc⟩
        · rw [hrec]
          exact hpw
        · rw [prevLinked, hrec]
          exact hpl
        · rw [hrec]
          exact hfp
      unfold transition_state at heq
      rw [if_neg (by simp [hu]), if_neg (by simp [hm]), hread] at heq
      cases res0 with
      | error e =>
        dsimp only [] at heq
        rw [Prod.mk.injEq] at heq
        obtain ⟨-, h2⟩ := heq
        subst h2
        exact hinv1
      | ok current =>
        have hcur : current = dbLatestState w.records :=
          getCurrentStateValue_val env w current w1 (hflag.trans hu) hcc
            hread
        dsimp only [] at heq
        by_cases hshort : (current = some a.new_state
            ∧ ¬a.force_state_record = true ∧ w1.records ≠ [])
        · rw [if_pos hshort] at heq
          rw [Prod.mk.injEq] at heq
          obtain ⟨-, h2⟩ := heq
          subst h2
          exact hinv1
        · rw [if_neg hshort] at heq
          by_cases hlock : w1.lock = true
          · rw [if_pos hlock] at heq
            rw [Prod.mk.injEq] at heq
            obtain ⟨-, h2⟩ := heq
            subst h2
            exact hinv1
          · rw [if_neg hlock] at heq
            by_cases hcf : env.createFails = true
            · rw [if_pos hcf] at heq
              rw [Prod.mk.injEq] at heq
              obtain ⟨-, h2⟩ := heq
              subst h2
              refine ⟨?_, ?_, ?_, Or.inl rfl⟩
              · show w1.records.Pairwise _
                rw [hrec]
                exact hpw
              · show prevLinked w1.records
                rw [prevLinked, hrec]
                exact hpl
              · show firstPrevNone w1.records
                rw [hrec]
                exact hfp
            · rw [if_neg hcf] at heq
              have happ := records_append_invariant w.records
                { id := env.freshId, state := a.new_state,
                  previous_state := current,
                  transition_name := a.transition_name,
                  triggered_by := a.user,
                  organization_id := resolveOrgLocked env a.user
                    (if a.organization_id = none then env.ctxOrgId
                      else a.organization_id),
                  reason := a.reason }
                hpw hpl hfp hfresh hcur
              by_cases hcs : env.cacheSetFails = true
              · rw [if_pos hcs] at heq
                rw [Prod.mk.injEq] at heq
                obtain ⟨-, h2⟩ := heq
                subst h2
                refine ⟨?_, ?_, ?_, Or.inl rfl⟩
                · show (w1.records ++ _).Pairwise _
                  rw [hrec]
                  exact happ.1
                · show prevLinked (w1.records ++ _)
                  rw [hrec]
                  exact happ.2.1
                · show firstPrevNone (w1.records ++ _)
                  rw [hrec]
                  exact happ.2.2
              · rw [if_neg hcs] at heq
                rw [Prod.mk.injEq] at heq
                obtain ⟨-, h2⟩ := heq
                subst h2
                refine ⟨?_, ?_, ?_, ?_⟩
                · show (w1.records ++ _).Pairwise _
                  rw [hrec]
                  exact happ.1
                · show prevLinked (w1.records ++ _)
                  rw [hrec]
                  exact happ.2.1
                · show firstPrevNone (w1.records ++ _)
                  rw [hrec]
                  exact happ.2.2
                · refine Or.inr ?_
                  show some a.new_state = dbLatestState (w1.records ++ _)
                  rw [hrec, dbLatestState, latestRecord_append _ _ hfresh]
                  rfl
    · unfold transition_state at heq
      rw [if_neg (by simp [hu]), if_pos (by simp [hm])] at heq
      rw [Prod.mk.injEq] at heq
      obtain ⟨-, h2⟩ := heq
      subst h2
      exact ⟨hpw, hpl, hfp, hcc⟩
  · unfold transition_state at heq
    rw [if_pos (by simp [hu])] at heq
    rw [Prod.mk.injEq] at heq
    obtain ⟨-, h2⟩ := heq
    subst h2
    exact ⟨hpw, hpl, hfp, hcc⟩

/-- Every world reachable through State Manager operations satisfies the
audit-trail invariant. -/
theorem reachable_invariant (w : World) (h : Reachable w) :
    HistoryInvariant w := by
  induction h with
  | init =>
    exact ⟨List.Pairwise.nil, List.chain'_nil, trivial, Or.inl rfl⟩
  | step env a w w' res hr hfresh hflag heq ih =>
    exact transition_preserves_invariant env a w res w' hfresh hflag heq ih
  | invalidateCache w hr ih =>
    exact ⟨ih.1, ih.2.1, ih.2.2.1, Or.inl rfl⟩
  | lockTtlExpires w hr ih =>
    exact ⟨ih.1, ih.2.1, ih.2.2.1, ih.2.2.2⟩

/-- Claim C4: for any entity whose stores were only ever touched by the
State Manager, the StateRecords form a total order by id equal to
creation order, each record's `previous_state` equals the state of the
immediately preceding record, and the first record's `previous_state` is
null. -/
theorem audit_trail_totally_ordered (w : World) (h : Reachable w) :
    w.records.Pairwise (fun a b => a.id < b.id) ∧
    List.Chain' (fun a b => b.previous_state = some a.state) w.records ∧
    (∀ r rs, w.records = r :: rs → r.previous_state = none) := by
  have hi := reachable_invariant w h
  refine ⟨hi.1, hi.2.1, ?_⟩
  intro r rs hw
  have hfp := hi.2.2.1
  rw [hw] at hfp
  exact hfp

/-- Witness for C4: a concrete two-transition run (CREATED then
COMPLETED) reached through `transition_state` satisfies the ordering and
chaining invariants. -/
theorem audit_trail_totally_ordered_witness :
    wStep2.records.Pairwise (fun a b => a.id < b.id) ∧
    List.Chain' (fun a b => b.previous_state = some a.state)
      wStep2.records ∧
    (∀ r rs, wStep2.records = r :: rs → r.previous_state = none) := by
  have h1 : Reachable wStep1 :=
    Reachable.step envPlain { new_state := "CREATED" } emptyWorld wStep1
      (.ok true) Reachable.init (by decide) rfl (by decide)
  have h2 : Reachable wStep2 :=
    Reachable.step envStep2 { new_state := "COMPLETED" } wStep1 wStep2
      (.ok true) h1 (by decide) rfl (by decide)
  exact audit_trail_totally_ordered wStep2 h2

/-- Monotonicity of the generated 128-bit value in the counter, below
the 12-bit wrap point. -/
theorem uuid7WithCounter_lt (ts c1 c2 : Nat) (h1 : c1 < c2)
    (h2 : c2 ≤ 4095) : uuid7WithCounter ts c1 < uuid7WithCounter ts c2 := by
  have e1 : c1 % 4096 = c1 := Nat.mod_eq_of_lt (by omega)
  have e2 : c2 % 4096 = c2 := Nat.mod_eq_of_lt (by omega)
  unfold uuid7WithCounter
  rw [e1, e2]
  have hp : (0 : Nat) < 2 ^ 64 := by positivity
  have hmul : c1 * 2 ^ 64 < c2 * 2 ^ 64 :=
    mul_lt_mul_of_pos_right h1 hp
  exact Nat.add_lt_add_right (Nat.add_lt_add_left hmul _) _

/-- The first id of a call sequence comes from the incremented counter. -/
theorem genCalls_head (g : UUID7Generator) (off n : Nat) :
    (genCalls g off (n + 1)).head? =
      some (uuid7WithCounter (g.baseMs + off) (g.counter + 1)) := rfl

/-- Same-millisecond call sequences are strictly increasing while the
counter stays below the 12-bit wrap. -/
theorem genCalls_chain (off n : Nat) : ∀ (g : UUID7Generator),
    g.counter + n ≤ 4095 →
    List.Chain' (fun x y => x < y) (genCalls g off n) := by
  induction n with
  | zero =>
    intro g h
    exact List.chain'_nil
  | succ n ih =>
    intro g h
    show List.Chain' _ ((g.generate off).1 :: genCalls (g.generate off).2 off n)
    rw [List.chain'_cons']
    constructor
    · intro y hy
      cases n with
      | zero => simp [genCalls] at hy
      | succ m =>
        rw [genCalls_head] at hy
        simp only [Option.mem_def, Option.some.injEq] at hy
        subst hy
        show uuid7WithCounter (g.baseMs + off) (g.counter + 1) <
          uuid7WithCounter (g.baseMs + off) (g.counter + 1 + 1)
        exact uuid7WithCounter_lt _ _ _ (by omega) (by omega)
    · refine ih (g.generate off).2 ?_
      have hc : (g.generate off).2.counter = g.counter + 1 := rfl
      omega

/-- A call sequence splits at any point, continuing from the
intermediate generator state. -/
theorem genCalls_append (off : Nat) : ∀ (n : Nat) (g : UUID7Generator)
    (m : Nat), genCalls g off (n + m) =
      genCalls g off n ++ genCalls (genState g off n) off m := by
  intro n
  induction n with
  | zero =>
    intro g m
    rw [Nat.zero_add]
    rfl
  | succ n ih =>
    intro g m
    rw [Nat.succ_add]
    show (g.generate off).1 :: genCalls (g.generate off).2 off (n + m) = _
    rw [ih (g.generate off).2 m]
    rfl

/-- A call sequence has one id per call. -/
theorem genCalls_length (g : UUID7Generator) (off : Nat) : ∀ (n : Nat),
    (genCalls g off n).length = n := by
  intro n
  induction n generalizing g with
  | zero => rfl
  | succ n ih =>
    show ((g.generate off).1 :: genCalls (g.generate off).2 off n).length
      = n + 1
    rw [List.length_cons, ih]

/-- After `n` calls the counter has advanced by `n`. -/
theorem genState_counter (off : Nat) : ∀ (n : Nat) (g : UUID7Generator),
    (genState g off n).counter = g.counter + n := by
  intro n
  induction n with
  | zero =>
    intro g
    rfl
  | succ n ih =>
    intro g
    show (genState (g.generate off).2 off n).counter = _
    rw [ih (g.generate off).2]
    show g.counter + 1 + n = g.counter + (n + 1)
    omega

/-- The base timestamp never changes across calls. -/
theorem genState_baseMs (off : Nat) : ∀ (n : Nat) (g : UUID7Generator),
    (genState g off n).baseMs = g.baseMs := by
  intro n
  induction n with
  | zero =>
    intro g
    rfl
  | succ n ih =>
    intro g
    show (genState (g.generate off).2 off n).baseMs = _
    rw [ih (g.generate off).2]
    rfl

/-- Claim C8 counterexample: from a fresh generator, 4096 calls in the
same millisecond are not strictly increasing — at the 4096th call the
12-bit counter (`counter & 0xFFF`) wraps to zero and the id drops below
its predecessor. -/
theorem uuid7_counter_wrap_counterexample :
    ¬ List.Chain' (fun x y => x < y)
      (genCalls { baseMs := 0, counter := 0 } 0 4096) := by
  intro h
  have h96 : (4096 : Nat) = 4094 + 2 := by norm_num
  rw [h96, genCalls_append 0 4094 { baseMs := 0, counter := 0 } 2] at h
  have htail := h.suffix (List.suffix_append _ _)
  generalize hgm : genState { baseMs := 0, counter := 0 } 0 4094 = gm
    at htail
  have hmc : gm.counter = 4094 := by
    rw [← hgm, genState_counter]
  have hmb : gm.baseMs = 0 := by
    rw [← hgm, genState_baseMs]
  have hids : genCalls gm 0 2 =
      [uuid7WithCounter (gm.baseMs + 0) (gm.counter + 1),
       uuid7WithCounter (gm.baseMs + 0) (gm.counter + 2)] := rfl
  rw [hids, hmb, hmc] at htail
  have hlt := (List.chain'_cons.mp htail).1
  have hge : ¬ (uuid7WithCounter (0 + 0) (4094 + 1) <
      uuid7WithCounter (0 + 0) (4094 + 2)) := by decide
  exact hge hlt

/-- Claim C8 (amended): within the same millisecond, repeated calls to
the generator yield strictly increasing 128-bit ids as long as the
generator has made at most 4095 calls in total; the tie-breaking counter
is masked to 12 bits, so one call later it wraps to zero and the
sequence decreases. -/
theorem uuid7_same_ms_strictly_increasing (b off n : Nat) (h : n ≤ 4095) :
    List.Chain' (fun x y => x < y)
      (genCalls { baseMs := b, counter := 0 } off n) :=
  genCalls_chain off n { baseMs := b, counter := 0 }
    (by show 0 + n ≤ 4095; omega)

/-- Witness for C8's amended statement at a concrete input. -/
theorem uuid7_same_ms_strictly_increasing_witness :
    3 ≤ 4095 ∧
    List.Chain' (fun x y => x < y)
      (genCalls { baseMs := 0, counter := 0 } 0 3) :=
  ⟨by decide, uuid7_same_ms_strictly_increasing 0 0 3 (by decide)⟩

end Fsm
